import Mathlib

/-!
Verification of the Solana transaction/fee/swap engine of the trading
gateway: shallow embeddings of the fee estimator, the fee-escalation and
broadcast/confirm loops, the token resolver, the balance reader and the
trade guards, with theorems settling the spec's claims about them.

Network interactions are modelled by explicit environments (oracles) that
supply the outcome of each RPC call; JavaScript numbers are modelled by ℚ
(every arithmetic step taken in this file is exact in IEEE-754 binary64,
so rational arithmetic agrees with the source on the inputs considered);
JavaScript exceptions are modelled by `Option`/`Except`.
-/

/-! ## Fee estimator (`Solana.estimatePriorityFees`) -/

/-- Configuration fields of `Solana` read by `estimatePriorityFees`. -/
structure FeeConfig where
  minPriorityFee : ℚ
  defaultComputeUnits : ℚ
  priorityFeePercentile : ℚ

/-- Source: `const minimumFee = this.minPriorityFee / this.defaultComputeUnits * 1_000_000`. -/
def minimumFee (c : FeeConfig) : ℚ :=
  c.minPriorityFee / c.defaultComputeUnits * 1000000

/-- The cache-miss path of `Solana.estimatePriorityFees`, given the
`prioritizationFee` samples of the RPC response. Zero samples are filtered
out; when none remain the configured minimum fee is returned; otherwise the
samples are sorted ascending, the entry at index `ceil(n * percentile) - 1`
is taken and floored against the minimum fee. A percentile index outside
the array (`fees[i]` is `undefined` in JavaScript, so `Math.max` would
produce `NaN`) is modelled as `none`; logging-only statistics of the source
(min/max/average) are not modelled. -/
def estimatePriorityFees (c : FeeConfig) (samples : List ℚ) : Option ℚ :=
  let fees := samples.filter (fun f => decide (0 < f))
  let minFee := minimumFee c
  if fees.isEmpty then some minFee
  else
    let sorted := fees.mergeSort (fun a b => decide (a ≤ b))
    let percentileIndex : ℤ := Int.ceil ((fees.length : ℚ) * c.priorityFeePercentile)
    if 1 ≤ percentileIndex then
      (sorted.get? (percentileIndex - 1).toNat).map (fun f => max f minFee)
    else none

/-! ## Fee escalation (`Solana.sendAndConfirmTransaction`, `Jupiter.executeSwap`)

Both escalation loops share the same fee recurrence: loop while
`currentPriorityFee <= this.maxPriorityFee`, and after an exhausted retry
round set `currentPriorityFee = Math.floor(currentPriorityFee * this.priorityFeeMultiplier)`. -/

/-- Source: `Math.floor(currentPriorityFee * this.priorityFeeMultiplier)`. -/
def escalateFee (multiplier fee : ℚ) : ℚ :=
  ((Int.floor (fee * multiplier) : ℤ) : ℚ)

/-- Number of fee escalations performed by the loop before it exits with the
maximum-priority-fee error, in a run where no retry round ever confirms
(each loop iteration then ends in exactly one escalation). `none` means the
given fuel was exhausted before the loop exited, which models divergence. -/
def escalationSteps (maxFee multiplier : ℚ) : ℚ → ℕ → Option ℕ
  | _, 0 => none
  | fee, fuel + 1 =>
    if fee ≤ maxFee then
      (escalationSteps maxFee multiplier (escalateFee multiplier fee) fuel).map (· + 1)
    else some 0

/-! ## Broadcast/confirm engine -/

/-- Outcome of one `confirmTransaction(signature, connection)` call.
The promise rejects when the reported status carries a non-null `err`
(`txError`), and on HTTP errors or timeout (`requestError`); otherwise it
resolves to the object `{ confirmed, txData? }`. -/
inductive ConfirmOutcome
  | txError
  | requestError
  | resolves (confirmed : Bool) (hasTxData : Bool)
deriving DecidableEq

/-- The per-connection confirmation sweep of `sendAndConfirmTransaction`
(lines 787-797): `const confirmed = await this.confirmTransaction(...)`
followed by `if (confirmed) return signature`. The `if` tests the response
OBJECT, which in JavaScript is truthy whenever the promise resolves,
regardless of its `confirmed` field; rejections are caught, logged and the
next connection is tried. Returns whether the sweep returned the signature. -/
def sacConfirmSweep : List ConfirmOutcome → Bool
  | [] => false
  | .txError :: rest => sacConfirmSweep rest
  | .requestError :: rest => sacConfirmSweep rest
  | .resolves _ _ :: _ => true

/-- The per-connection confirmation sweep of `Jupiter.executeSwap`
(lines 700-719): `const { confirmed, txData } = await ...` followed by
`if (confirmed && txData) return ...`. -/
def swapConfirmSweep : List ConfirmOutcome → Bool
  | [] => false
  | .txError :: rest => swapConfirmSweep rest
  | .requestError :: rest => swapConfirmSweep rest
  | .resolves confirmed hasTxData :: rest =>
    if confirmed && hasTxData then true else swapConfirmSweep rest

/-- Environment of one submission attempt: the result of
`sendRawTransaction` (`none` models a throw), and the outcome of
`confirmTransaction` on each connection of the pool, in pool order. -/
structure AttemptEnv where
  send : Option String
  confirms : List ConfirmOutcome

/-- The inner retry loop of `sendAndConfirmTransaction` (lines 778-805):
up to `retryCount` attempts at the current fee; each attempt submits and,
on a successful submission, sweeps the pool for confirmation. Returns the
signature if an attempt returned, paired with the number of
`sendRawTransaction` calls performed. -/
def sacRetryLoop (env : ℕ → AttemptEnv) : ℕ → ℕ → Option String × ℕ
  | _, 0 => (none, 0)
  | i, r + 1 =>
    match (env i).send with
    | some signature =>
      if sacConfirmSweep (env i).confirms then (some signature, 1)
      else
        let rest := sacRetryLoop env (i + 1) r
        (rest.1, rest.2 + 1)
    | none =>
      let rest := sacRetryLoop env (i + 1) r
      (rest.1, rest.2 + 1)

/-- Configuration fields of `Solana` read by `sendAndConfirmTransaction`. -/
structure SacConfig where
  maxPriorityFee : ℚ
  priorityFeeMultiplier : ℚ
  retryCount : ℕ

/-- Result of `sendAndConfirmTransaction`: the returned signature, or the
`Transaction failed after reaching maximum priority fee` error. -/
inductive SacResult
  | success (signature : String)
  | maxFeeError
deriving DecidableEq

/-- The outer escalation loop of `sendAndConfirmTransaction` (lines
746-814) over an environment giving each (round, attempt) its network
outcomes: while the fee is within the ceiling, run a retry round; return
the signature an attempt produced, else escalate the fee and repeat; once
the fee exceeds the ceiling, throw the maximum-fee error. The result is
paired with the total number of `sendRawTransaction` calls; `none` models
fuel exhaustion. -/
def sendAndConfirmLoop (cfg : SacConfig) (env : ℕ → ℕ → AttemptEnv) :
    ℕ → ℚ → ℕ → Option (SacResult × ℕ)
  | _, _, 0 => none
  | round, fee, fuel + 1 =>
    if fee ≤ cfg.maxPriorityFee then
      match sacRetryLoop (env round) 0 cfg.retryCount with
      | (some signature, n) => some (.success signature, n)
      | (none, n) =>
        match sendAndConfirmLoop cfg env (round + 1) (escalateFee cfg.priorityFeeMultiplier fee) fuel with
        | none => none
        | some (r, m) => some (r, n + m)
    else some (.maxFeeError, 0)

/-! ## Broadcast (`Solana.sendRawTransaction`, lines 816-866) -/

/-- Environment of one `sendRawTransaction` call: the successive results of
`getBlockHeight` queries, and for each loop iteration the fan-out results
(`none` for a rejected promise, `some sig` for a fulfilled one, in pool
order). -/
structure SendEnv where
  heights : ℕ → ℕ
  sends : ℕ → List (Option String)

/-- Result of `sendRawTransaction`: a consistent signature, or the
`Maximum blockheight exceeded` error. -/
inductive SendOutcome
  | sig (s : String)
  | maxHeightExceeded
deriving DecidableEq

/-- The send loop body. `blockheight` is the value read by the single
`getBlockHeight` call issued BEFORE the loop; the source never re-reads it
inside the loop, so the loop condition compares this same value every
iteration. Each iteration fans out to all connections, keeps the fulfilled
signatures, retries when there are none or when they disagree, and returns
the common signature otherwise. `none` models fuel exhaustion. -/
def sendRawTransactionGo (env : SendEnv) (lastValidBlockHeight blockheight : ℕ) :
    ℕ → ℕ → Option SendOutcome
  | 0, _ => none
  | fuel + 1, i =>
    if blockheight ≤ lastValidBlockHeight + 50 then
      match (env.sends i).filterMap id with
      | [] => sendRawTransactionGo env lastValidBlockHeight blockheight fuel (i + 1)
      | s :: rest =>
        if (s :: rest).all (fun x => x == s) then some (.sig s)
        else sendRawTransactionGo env lastValidBlockHeight blockheight fuel (i + 1)
    else some .maxHeightExceeded

/-- `Solana.sendRawTransaction`: one height query, then the loop. -/
def sendRawTransaction (env : SendEnv) (lastValidBlockHeight : ℕ) (fuel : ℕ) :
    Option SendOutcome :=
  sendRawTransactionGo env lastValidBlockHeight (env.heights 0) fuel 0

/-- An execution in which the height read before the loop is within the
bound, every fan-out fails, and the network height then rises far above the
bound: later `heights` values are never consulted by the source. -/
def staleHeightEnv : SendEnv where
  heights := fun q => if q = 0 then 0 else 1000
  sends := fun _ => [none]

/-! ## Token resolution (`Solana.getTokenForSymbol`, `Solana.getTokenBySymbol`) -/

/-- The fields of a token-list entry used by the resolver and the balance
reader. -/
structure SplToken where
  symbol : String
  address : String
  decimals : ℕ
deriving DecidableEq

/-- JavaScript `String.prototype.toUpperCase`, for the ASCII symbols this
code handles (`Char.toUpper` agrees with it on ASCII). -/
def strUpper (s : String) : String :=
  String.mk (s.data.map Char.toUpper)

/-- The `_tokenMap` populated by `loadTokens` (lines 239-247):
`this._tokenMap[token.symbol] = token` in list order, so a later entry with
the same (exact, case-preserved) symbol overwrites an earlier one. -/
def buildTokenMap (tokenList : List SplToken) : String → Option SplToken :=
  tokenList.foldl (fun m t => fun s => if s = t.symbol then some t else m s) (fun _ => none)

/-- `Solana.getTokenForSymbol` (lines 283-293): a plain, case-sensitive
property read `this._tokenMap[symbol]`, `null` when absent. This is the
resolver `getTradeInfo` (and hence the price and trade paths) calls. -/
def getTokenForSymbol (tokenList : List SplToken) (symbol : String) : Option SplToken :=
  buildTokenMap tokenList symbol

/-- `Solana.getTokenBySymbol` (lines 550-558): scan the token list from the
END backwards and return the first entry whose upper-cased symbol equals the
upper-cased query; `undefined` when none matches. Used by the tokens
endpoint (`SolanaController.getTokens`). -/
def getTokenBySymbol (tokenList : List SplToken) (tokenSymbol : String) : Option SplToken :=
  tokenList.reverse.find? (fun t => strUpper t.symbol == strUpper tokenSymbol)

/-- Symbol resolution as performed by the price and trade paths:
`getTradeInfo` (solana.routes lines 169-180) resolves the base and quote
symbols through `solanaish.getTokenForSymbol`. -/
def tradePathResolveSymbol (tokenList : List SplToken) (symbol : String) : Option SplToken :=
  getTokenForSymbol tokenList symbol

/-! ## Balance reading (`Solana.getBalance`, lines 365-406) -/

/-- The filter of `getBalance`'s reduce (line 387):
`!upperCaseSymbols || upperCaseSymbols.includes(token.symbol.toUpperCase())`. -/
def symbolFilterPasses (upperCaseSymbols : Option (List String)) (t : SplToken) : Bool :=
  match upperCaseSymbols with
  | none => true
  | some us => us.contains (strUpper t.symbol)

/-- The `tokenDefs` lookup map built from the token list (lines 386-391):
keyed by mint address, restricted to the requested symbols
(case-insensitively) when a symbol list is given; a later entry with the
same address overwrites an earlier one. -/
def tokenDefs (tokenList : List SplToken) (upperCaseSymbols : Option (List String)) :
    String → Option (String × ℕ) :=
  tokenList.foldl
    (fun acc t =>
      if symbolFilterPasses upperCaseSymbols t then
        fun m => if m = t.address then some (t.symbol, t.decimals) else acc m
      else acc)
    (fun _ => none)

/-- `Solana.getBalance` as a symbol-keyed map (a JavaScript object):
`accounts` are the wallet's token accounts as (mint address, raw amount)
pairs, `solLamports` the native balance. The `"SOL"` entry is written only
when no symbol list is given or it contains `"SOL"` case-insensitively;
each token account whose mint is in `tokenDefs` writes its UI amount under
the token's (case-preserved) symbol. A symbol the wallet has no account for
gets NO entry. -/
def getBalance (tokenList : List SplToken) (accounts : List (String × ℕ))
    (symbols : Option (List String)) (solLamports : ℕ) : String → Option ℚ :=
  let upperCaseSymbols := symbols.map (List.map strUpper)
  let solIncluded : Bool :=
    match upperCaseSymbols with
    | none => true
    | some us => us.contains "SOL"
  let base : String → Option ℚ :=
    if solIncluded then
      fun s => if s = "SOL" then some ((solLamports : ℚ) / 10 ^ 9) else none
    else fun _ => none
  let defs := tokenDefs tokenList upperCaseSymbols
  accounts.foldl
    (fun bal p =>
      match defs p.1 with
      | none => bal
      | some sd => fun s => if s = sd.1 then some ((p.2 : ℚ) / 10 ^ sd.2) else bal s)
    base

/-! ## Trade guards (`trade` in solana.routes, lines 318-440) -/

/-- Trade side. -/
inductive Side
  | buy
  | sell
deriving DecidableEq

/-- Errors `Jupiter.executeSwap` (and the calls it makes) can raise. -/
inductive SwapError
  | simulationError
  | swapRouteFetchError
  | maxPriorityFeeExceeded
deriving DecidableEq

/-- The error kinds `trade` can raise after a successful quote, each with
its own error code in the source. `decimalInvalidArgument` models the
exception `new Decimal(undefined)` throws when a balance key is absent. -/
inductive TradeError
  | swapPriceExceedsLimitPrice
  | swapPriceLowerThanLimitPrice
  | insufficientBaseTokenBalance
  | insufficientQuoteTokenBalance
  | decimalInvalidArgument
  | swapError (e : SwapError)
deriving DecidableEq

/-- The limit-price guard (lines 361-379). `req.limitPrice` is an optional
decimal string; when absent the JavaScript `req.limitPrice && ...` conjunct
is falsy and the check is skipped. The comparisons are exact decimal
comparisons (`Decimal.gt` / `Decimal.lt`). -/
def limitPriceGuard (side : Side) (limitPrice : Option ℚ) (expectedPrice : ℚ) :
    Except TradeError Unit :=
  match side, limitPrice with
  | .buy, some lp => if lp < expectedPrice then .error .swapPriceExceedsLimitPrice else .ok ()
  | .sell, some lp => if expectedPrice < lp then .error .swapPriceLowerThanLimitPrice else .ok ()
  | _, none => .ok ()

/-- The balance guard (lines 381-400): SELL reads the base-token entry of
`getBalance` and fails when it is below `req.amount`; BUY reads the
quote-token entry and fails when it is below `expectedAmount`. An absent
entry makes `new Decimal(balance[...])` throw before any comparison. -/
def balanceGuard (side : Side) (amount expectedAmount : ℚ) (baseSymbol quoteSymbol : String)
    (balances : String → Option ℚ) : Except TradeError Unit :=
  match side with
  | .sell =>
    match balances baseSymbol with
    | none => .error .decimalInvalidArgument
    | some b => if b < amount then .error .insufficientBaseTokenBalance else .ok ()
  | .buy =>
    match balances quoteSymbol with
    | none => .error .decimalInvalidArgument
    | some b => if b < expectedAmount then .error .insufficientQuoteTokenBalance else .ok ()

/-- Outcome of `jupiter.executeSwap` as an environment value: its result and
the number of transaction submissions it performed. -/
structure SwapExecution where
  result : Except SwapError String
  submissions : ℕ

/-- The guard-and-submit sequence of `trade` after `getTradeInfo` returned:
limit-price guard, then balance guard, then `jupiter.executeSwap`. The
result is paired with the number of transaction submissions performed; both
guards throw before any submission. -/
def tradeModel (side : Side) (limitPrice : Option ℚ) (amount expectedPrice expectedAmount : ℚ)
    (baseSymbol quoteSymbol : String) (balances : String → Option ℚ)
    (swap : SwapExecution) : Except TradeError String × ℕ :=
  match limitPriceGuard side limitPrice expectedPrice with
  | .error e => (.error e, 0)
  | .ok _ =>
    match balanceGuard side amount expectedAmount baseSymbol quoteSymbol balances with
    | .error e => (.error e, 0)
    | .ok _ =>
      match swap.result with
      | .error e => (.error (.swapError e), swap.submissions)
      | .ok signature => (.ok signature, swap.submissions)

/-- The symbol whose balance `trade` checks: the base token on a SELL, the
quote token on a BUY. -/
def balanceCheckedSymbol (side : Side) (baseSymbol quoteSymbol : String) : String :=
  match side with
  | .sell => baseSymbol
  | .buy => quoteSymbol

/-- The amount the checked balance is compared against: `req.amount` on a
SELL, `expectedAmount` on a BUY. -/
def balanceRequiredAmount (side : Side) (amount expectedAmount : ℚ) : ℚ :=
  match side with
  | .sell => amount
  | .buy => expectedAmount

/-- The side-specific insufficient-balance error kind. -/
def insufficientBalanceError (side : Side) : TradeError :=
  match side with
  | .sell => .insufficientBaseTokenBalance
  | .buy => .insufficientQuoteTokenBalance

/-! ## Number formatting (`price` in solana.routes, lines 303-316)

The `price` response reports `amount: new Decimal(req.amount).toFixed(baseToken.decimals)`
and `rawAmount: requestAmount.toString()` where
`requestAmount = Math.floor(amount * DECIMAL_MULTIPLIER ** baseToken.decimals)`
(getTradeInfo line 182, `amount = Number(req.amount)`). The former is exact
decimal arithmetic (decimal.js); the latter is IEEE-754 binary64 arithmetic
followed by JavaScript number-to-string conversion. -/

/-- Decimal digit to character. -/
def digitChar (d : ℕ) : Char :=
  if d = 0 then '0' else if d = 1 then '1' else if d = 2 then '2' else if d = 3 then '3'
  else if d = 4 then '4' else if d = 5 then '5' else if d = 6 then '6' else if d = 7 then '7'
  else if d = 8 then '8' else '9'

/-- Base-10 digits of `m`, least significant first, with explicit fuel. -/
def digitsRev (fuel m : ℕ) : List ℕ :=
  match fuel with
  | 0 => []
  | fuel + 1 => if m = 0 then [] else m % 10 :: digitsRev fuel (m / 10)

/-- Base-10 digits of `m`, most significant first. The fuel 40 covers every
magnitude this development evaluates (all below 10^40). -/
def natDigits (m : ℕ) : List ℕ :=
  (digitsRev 40 m).reverse

/-- Decimal rendering of a natural number. -/
def natToString (m : ℕ) : String :=
  if m = 0 then "0" else String.mk ((natDigits m).map digitChar)

/-- Left-pad with `'0'` to length `d`. -/
def padLeftZeros (s : String) (d : ℕ) : String :=
  String.mk (List.replicate (d - s.length) '0') ++ s

/-- Rendering of a scaled value (the number times `10 ^ d`, a natural
number here because only non-negative values are formatted) with exactly
`d` fractional digits. -/
def decimalToFixedNat (scaled d : ℕ) : String :=
  if d = 0 then natToString (scaled / 10 ^ d)
  else natToString (scaled / 10 ^ d) ++ "." ++ padLeftZeros (natToString (scaled % 10 ^ d)) d

/-- `new Decimal(x).toFixed(d)` of decimal.js-light for a non-negative `x`:
the value rounded half-up to `d` decimal places, rendered with exactly `d`
fractional digits. -/
def decimalToFixed (q : ℚ) (d : ℕ) : String :=
  decimalToFixedNat (Int.floor (q * 10 ^ d + 1 / 2)).toNat d

/-- `Number.prototype.toString()` (ECMA-262 Number::toString, radix 10) for
a non-negative integral number `m = s * 10 ^ (n - k)` with `s` the `k`
significant digits: plain decimal notation when the total digit count `n`
is at most 21, exponential notation with exponent `n - 1` otherwise. In
particular `(1e22).toString()` is `"1e+22"`. -/
def jsIntToString (m : ℕ) : String :=
  if m = 0 then "0"
  else
    let ds := natDigits m
    let n := ds.length
    if n ≤ 21 then String.mk (ds.map digitChar)
    else
      let sds := (ds.reverse.dropWhile (fun d => d == 0)).reverse
      let expo := natToString (n - 1)
      match sds with
      | [] => "0"
      | [d] => String.mk [digitChar d] ++ "e+" ++ expo
      | d :: rest => String.mk [digitChar d] ++ "." ++ String.mk (rest.map digitChar) ++ "e+" ++ expo

/-- `export const DECIMAL_MULTIPLIER = 10` (jupiter connector). -/
def DECIMAL_MULTIPLIER : ℕ := 10

/-- `Math.floor(amount * DECIMAL_MULTIPLIER ** decimals)` (getTradeInfo
line 182). The binary64 computation is exact for the inputs evaluated in
this file (products below 2^53 times an exact power of two), so rational
arithmetic agrees with the source on them. -/
def requestAmount (amount : ℚ) (decimals : ℕ) : ℤ :=
  Int.floor (amount * (DECIMAL_MULTIPLIER : ℚ) ^ decimals)

/-- The `amount` field of the `price` response:
`new Decimal(req.amount).toFixed(baseToken.decimals)`. -/
def priceAmountField (amount : ℚ) (decimals : ℕ) : String :=
  decimalToFixed amount decimals

/-- The `rawAmount` field of the `price` response:
`requestAmount.toString()`. -/
def priceRawAmountField (amount : ℚ) (decimals : ℕ) : String :=
  jsIntToString (requestAmount amount decimals).toNat

/-! ## Theorems -/

/-- C1: a run of the `sendAndConfirmTransaction` escalation loop in which
the only `confirmTransaction` call resolves with `confirmed = false` still
returns the signature as success, because `if (confirmed)` on line 790
tests the response object — truthy whenever the promise resolves — rather
than its `confirmed` field. This contradicts the claim that a signature is
returned only when some confirmation reported `confirmed = true`. -/
theorem sendAndConfirm_success_without_confirmed :
    sendAndConfirmLoop ⟨100, 2, 1⟩
      (fun _ _ => ⟨some "sig", [ConfirmOutcome.resolves false false]⟩) 0 10 5
      = some (.success "sig", 1) := by
  norm_num [sendAndConfirmLoop, sacRetryLoop, sacConfirmSweep]

/-- The swap path does test the `confirmed` field: `executeSwap`'s sweep
returns success only when some outcome resolved with `confirmed = true` and
transaction data present. (Supporting fact for the confirmation claims;
the defect is specific to `sendAndConfirmTransaction`.) -/
theorem swapConfirmSweep_requires_confirmed (outcomes : List ConfirmOutcome) :
    swapConfirmSweep outcomes = true →
    ∃ o ∈ outcomes, o = ConfirmOutcome.resolves true true := by
  induction outcomes with
  | nil => intro h; exact absurd h (by simp [swapConfirmSweep])
  | cons o rest ih =>
    intro h
    cases o with
    | txError =>
      obtain ⟨o', ho', he⟩ := ih (by simpa [swapConfirmSweep] using h)
      exact ⟨o', by simp [ho'], he⟩
    | requestError =>
      obtain ⟨o', ho', he⟩ := ih (by simpa [swapConfirmSweep] using h)
      exact ⟨o', by simp [ho'], he⟩
    | resolves c t =>
      by_cases hct : (c && t) = true
      · obtain ⟨rfl, rfl⟩ : c = true ∧ t = true := by simpa using hct
        exact ⟨.resolves true true, by simp, rfl⟩
      · obtain ⟨o', ho', he⟩ := ih (by simpa [swapConfirmSweep, hct] using h)
        exact ⟨o', by simp [ho'], he⟩

/-- C2: in a run where every confirmation attempt reports a definitive
on-chain failure (non-null `err`, which makes `confirmTransaction` reject),
the loop does not terminate at that failure: the rejection is caught and
logged per connection (line 794), the round is retried, the fee escalates
through 1, 2 and 4, two further submissions are performed after the first
failure (3 in total), and the loop finally throws the maximum-priority-fee
error instead of propagating the on-chain rejection. -/
theorem sendAndConfirm_retries_after_onchain_failure :
    sendAndConfirmLoop ⟨4, 2, 1⟩
      (fun _ _ => ⟨some "sig", [ConfirmOutcome.txError]⟩) 0 1 10
      = some (.maxFeeError, 3) := by
  norm_num [sendAndConfirmLoop, sacRetryLoop, sacConfirmSweep, escalateFee]

/-- C3: `sendRawTransaction` never re-reads the network height inside its
loop (the single `getBlockHeight` call precedes the loop), so in an
execution where the initially read height is within the bound, every
fan-out fails and the height then rises far beyond the bound, the call
never terminates — for every fuel the model is still running — instead of
failing with the maximum-blockheight error as the claim requires. -/
theorem sendRawTransaction_stale_height_never_exits (fuel : ℕ) :
    sendRawTransaction staleHeightEnv 10 fuel = none := by
  have h : ∀ f i, sendRawTransactionGo staleHeightEnv 10 0 f i = none := by
    intro f
    induction f with
    | zero => intro i; rfl
    | succ n ih =>
      intro i
      have hs : staleHeightEnv.sends i = [none] := rfl
      simp [sendRawTransactionGo, hs, ih]
  simpa [sendRawTransaction, staleHeightEnv] using h fuel 0

/-- C8 counterexample: with initial fee 5, multiplier 2 and ceiling 40
(so f0 > 0, C ≥ f0, m > 1), the loop performs 4 escalation steps before
the fee-ceiling failure (the fee passes through 5, 10, 20 and 40, each
within the ceiling, and fails at 80), while the claimed formula
`ceil(log_m(C / f0)) = ceil(log_2 8)` gives 3. -/
theorem escalation_count_formula_counterexample :
    escalationSteps 40 2 5 10 = some 4
    ∧ ⌈Real.logb 2 ((40 : ℝ) / 5)⌉ = 3
    ∧ (4 : ℤ) ≠ 3 := by
  refine ⟨by norm_num [escalationSteps, escalateFee], ?_, by norm_num⟩
  have h8 : ((40 : ℝ) / 5) = 2 ^ (3 : ℕ) := by norm_num
  have hlog : Real.logb 2 ((2 : ℝ) ^ (3 : ℕ)) = 3 := by
    rw [Real.logb, Real.log_pow]
    have h2 : Real.log 2 ≠ 0 := ne_of_gt (Real.log_pos (by norm_num))
    field_simp
  rw [h8, hlog]
  norm_num

/-- C8 amended: the loop multiplies the fee by the multiplier (through
`Math.floor`) after each exhausted retry round and fails at the FIRST
escalated fee strictly exceeding the ceiling; for a natural initial fee
`f0` and natural multiplier `m` (so the floor is exact) the number of
escalation steps is therefore the least `k` with `f0 * m ^ k > C` — at the
boundary `C = f0 * m ^ j` this is `floor(log_m(C / f0)) + 1`, one more
than the claimed `ceil(log_m(C / f0))`. -/
theorem escalationSteps_least_exceeding (f0 m : ℕ) (maxFee : ℚ) (k fuel : ℕ)
    (hlow : ∀ j, j < k → ((f0 : ℚ) * (m : ℚ) ^ j ≤ maxFee))
    (hhigh : maxFee < (f0 : ℚ) * (m : ℚ) ^ k)
    (hfuel : k < fuel) :
    escalationSteps maxFee (m : ℚ) (f0 : ℚ) fuel = some k := by
  induction k generalizing f0 fuel with
  | zero =>
    obtain ⟨fuel', rfl⟩ : ∃ n, fuel = n + 1 := ⟨fuel - 1, by omega⟩
    have hnot : ¬ ((f0 : ℚ) ≤ maxFee) := not_le.mpr (by simpa using hhigh)
    simp [escalationSteps, hnot]
  | succ k ih =>
    obtain ⟨fuel', rfl⟩ : ∃ n, fuel = n + 1 := ⟨fuel - 1, by omega⟩
    have h0 : (f0 : ℚ) ≤ maxFee := by simpa using hlow 0 (Nat.succ_pos k)
    have hesc : escalateFee (m : ℚ) (f0 : ℚ) = ((f0 * m : ℕ) : ℚ) := by
      unfold escalateFee
      rw [show (f0 : ℚ) * (m : ℚ) = ((f0 * m : ℕ) : ℚ) by push_cast; ring]
      rw [Int.floor_natCast]
      push_cast
      ring
    have hrec : escalationSteps maxFee (m : ℚ) ((f0 * m : ℕ) : ℚ) fuel' = some k := by
      refine ih (f0 * m) fuel' ?_ ?_ (by omega)
      · intro j hj
        have h := hlow (j + 1) (by omega)
        push_cast
        calc (f0 : ℚ) * (m : ℚ) * (m : ℚ) ^ j = (f0 : ℚ) * (m : ℚ) ^ (j + 1) := by ring
          _ ≤ maxFee := h
      · push_cast
        calc maxFee < (f0 : ℚ) * (m : ℚ) ^ (k + 1) := hhigh
          _ = (f0 : ℚ) * (m : ℚ) * (m : ℚ) ^ k := by ring
    push_cast at hrec
    simp [escalationSteps, h0, hesc, hrec]

/-- C8 witness: at initial fee 5, multiplier 2, ceiling 40, the amended
count is 4 (the least `k` with `5 * 2 ^ k > 40`). -/
theorem escalationSteps_least_exceeding_witness :
    escalationSteps 40 ((2 : ℕ) : ℚ) ((5 : ℕ) : ℚ) 10 = some 4 :=
  escalationSteps_least_exceeding 5 2 40 4 10
    (by intro j hj; interval_cases j <;> norm_num)
    (by norm_num)
    (by norm_num)

/-- C5 counterexample: for a price request with amount 10000 on a base
token with 18 decimals, the response does NOT carry both claimed strings —
`rawAmount` is produced by `Number.prototype.toString` on the float-derived
`requestAmount`, which renders 10^22 in exponential notation. -/
theorem price_rawAmount_counterexample :
    ¬ (priceAmountField 10000 18 = "10000.000000000000000000"
        ∧ priceRawAmountField 10000 18 = "10000000000000000000000") := by
  intro h
  have hscaled : (requestAmount 10000 18).toNat = 10000000000000000000000 := by
    rw [show requestAmount 10000 18 = 10000000000000000000000 from by
      norm_num [requestAmount, DECIMAL_MULTIPLIER]]
    rfl
  have h2 := h.2
  rw [priceRawAmountField, hscaled] at h2
  exact absurd h2 (by decide)

/-- C5 amended: the `amount` field is computed with exact decimal
arithmetic (`new Decimal(req.amount).toFixed(18)`) and equals
`"10000.000000000000000000"`, but the `rawAmount` field is computed with
binary floating-point arithmetic (`Math.floor(amount * 10 ** 18)`, exact
for this input) and serialized by JavaScript `Number.prototype.toString`,
which yields `"1e+22"` rather than `"10000000000000000000000"`. -/
theorem price_fields_amended :
    priceAmountField 10000 18 = "10000.000000000000000000"
    ∧ priceRawAmountField 10000 18 = "1e+22" := by
  constructor
  · have hscaled : (⌊(10000 : ℚ) * 10 ^ 18 + 1 / 2⌋ : ℤ).toNat
        = 10000000000000000000000 := by
      rw [show (⌊(10000 : ℚ) * 10 ^ 18 + 1 / 2⌋ : ℤ) = 10000000000000000000000 from by
        norm_num]
      rfl
    simp only [priceAmountField, decimalToFixed]
    rw [hscaled]
    decide
  · have hscaled : (requestAmount 10000 18).toNat = 10000000000000000000000 := by
      rw [show requestAmount 10000 18 = 10000000000000000000000 from by
        norm_num [requestAmount, DECIMAL_MULTIPLIER]]
      rfl
    simp only [priceRawAmountField]
    rw [hscaled]
    decide

/-- C4: on the cache-miss path the estimator first discards zero-valued
samples; with a positive configured minimum fee and compute-unit budget and
a percentile in (0, 1], it returns a defined, positive value that is at
least the configured minimum fee `minPriorityFee / defaultComputeUnits *
1,000,000`, and returns exactly that minimum fee whenever no non-zero
sample remains (in particular it never returns zero). -/
theorem estimatePriorityFees_floor (c : FeeConfig) (samples : List ℚ)
    (hmin : 0 < c.minPriorityFee) (hcu : 0 < c.defaultComputeUnits)
    (hp0 : 0 < c.priorityFeePercentile) (hp1 : c.priorityFeePercentile ≤ 1) :
    ∃ v, estimatePriorityFees c samples = some v ∧ 0 < v ∧ minimumFee c ≤ v ∧
      ((samples.filter (fun f => decide (0 < f))).isEmpty = true → v = minimumFee c) := by
  have hminfee : 0 < minimumFee c := by
    unfold minimumFee
    positivity
  by_cases hemp : (samples.filter (fun f => decide (0 < f))).isEmpty
  · refine ⟨minimumFee c, ?_, hminfee, le_refl _, fun _ => rfl⟩
    unfold estimatePriorityFees
    simp [hemp]
  · have hlen : 0 < (samples.filter (fun f => decide (0 < f))).length := by
      rcases hfe : samples.filter (fun f => decide (0 < f)) with _ | ⟨a, l⟩
      · rw [hfe] at hemp; simp at hemp
      · simp
    have h1 : 1 ≤ Int.ceil (((samples.filter (fun f => decide (0 < f))).length : ℚ)
        * c.priorityFeePercentile) := by
      have hpos : (0 : ℚ) < ((samples.filter (fun f => decide (0 < f))).length : ℚ)
          * c.priorityFeePercentile :=
        mul_pos (by exact_mod_cast hlen) hp0
      have := Int.ceil_pos.mpr hpos
      omega
    have hle : Int.ceil (((samples.filter (fun f => decide (0 < f))).length : ℚ)
        * c.priorityFeePercentile) ≤ ((samples.filter (fun f => decide (0 < f))).length : ℤ) := by
      refine Int.ceil_le.mpr ?_
      calc ((samples.filter (fun f => decide (0 < f))).length : ℚ) * c.priorityFeePercentile
          ≤ ((samples.filter (fun f => decide (0 < f))).length : ℚ) * 1 :=
            mul_le_mul_of_nonneg_left hp1 (by positivity)
        _ = (((samples.filter (fun f => decide (0 < f))).length : ℤ) : ℚ) := by push_cast; ring
    have hk : (Int.ceil (((samples.filter (fun f => decide (0 < f))).length : ℚ)
          * c.priorityFeePercentile) - 1).toNat
        < ((samples.filter (fun f => decide (0 < f))).mergeSort
            (fun a b => decide (a ≤ b))).length := by
      rw [List.length_mergeSort]
      omega
    obtain ⟨f, hf⟩ : ∃ f, ((samples.filter (fun f => decide (0 < f))).mergeSort
          (fun a b => decide (a ≤ b))).get?
        (Int.ceil (((samples.filter (fun f => decide (0 < f))).length : ℚ)
          * c.priorityFeePercentile) - 1).toNat = some f :=
      ⟨_, List.get?_eq_get hk⟩
    refine ⟨max f (minimumFee c), ?_,
      lt_of_lt_of_le hminfee (le_max_right _ _), le_max_right _ _,
      fun h => absurd h (by simp [hemp])⟩
    unfold estimatePriorityFees
    simp only [hemp, if_false, Bool.false_eq_true]
    rw [if_pos h1, hf]
    rfl

/-- C4 witness: minimum fee 1000 lamports over a 200000 compute-unit
budget (so a 5000 micro-lamport floor), median percentile, samples
[0, 5, 3]: the estimate is defined, positive and at least the floor. -/
theorem estimatePriorityFees_floor_witness :
    ∃ v, estimatePriorityFees ⟨1000, 200000, 1 / 2⟩ [0, 5, 3] = some v ∧ 0 < v ∧
      minimumFee ⟨1000, 200000, 1 / 2⟩ ≤ v ∧
      (([0, 5, 3].filter (fun f : ℚ => decide (0 < f))).isEmpty = true →
        v = minimumFee ⟨1000, 200000, 1 / 2⟩) :=
  estimatePriorityFees_floor ⟨1000, 200000, 1 / 2⟩ [0, 5, 3]
    (by norm_num) (by norm_num) (by norm_num) (by norm_num)

/-- Appending one token to the list makes it the new exact-symbol binding
in `_tokenMap` and leaves all other symbols untouched. -/
theorem buildTokenMap_concat (l : List SplToken) (t : SplToken) (s : String) :
    buildTokenMap (l ++ [t]) s = if s = t.symbol then some t else buildTokenMap l s := by
  simp [buildTokenMap, List.foldl_append]

/-- Searching a reversed list is taking the last match of the original. -/
theorem find?_reverse_eq_getLast?_filter {α : Type} (p : α → Bool) (l : List α) :
    l.reverse.find? p = (l.filter p).getLast? := by
  induction l using List.reverseRecOn with
  | nil => rfl
  | append_singleton l a ih =>
    rw [List.reverse_append]
    cases hpa : p a with
    | true =>
      simp only [List.reverse_singleton, List.singleton_append, List.find?_cons, hpa,
        List.filter_append, List.filter_singleton, Bool.cond_true]
      rw [List.getLast?_concat]
    | false =>
      simp only [List.reverse_singleton, List.singleton_append, List.find?_cons, hpa,
        List.filter_append, List.filter_singleton, Bool.cond_false, List.append_nil]
      exact ih

/-- C9 amended: the resolver used by the price and trade paths
(`getTokenForSymbol`, a plain `_tokenMap[symbol]` read) matches by
CASE-SENSITIVE exact symbol comparison, with ties resolving to the last
matching entry in list order and an unmatched symbol resolving to nothing;
the case-insensitive last-match rule holds for `getTokenBySymbol`, which
serves the tokens endpoint, not the price/trade paths. -/
theorem tokenResolution_last_match (tokenList : List SplToken) (s : String) :
    tradePathResolveSymbol tokenList s
      = (tokenList.filter (fun t => t.symbol == s)).getLast?
    ∧ getTokenBySymbol tokenList s
      = (tokenList.filter (fun t => strUpper t.symbol == strUpper s)).getLast? := by
  constructor
  · induction tokenList using List.reverseRecOn with
    | nil => rfl
    | append_singleton l t ih =>
      unfold tradePathResolveSymbol getTokenForSymbol at *
      rw [buildTokenMap_concat, List.filter_append]
      by_cases h : t.symbol = s
      · simp [h, List.getLast?_concat]
      · have h' : ¬ (s = t.symbol) := fun hc => h hc.symm
        simp [h, h', ih]
  · exact find?_reverse_eq_getLast?_filter _ tokenList

/-- C9 counterexample: the price/trade-path resolver is not
case-insensitive — a token list containing the symbol `"WETC"` resolves
nothing for the query `"wetc"`, although the two symbols agree up to case
(so the claimed case-insensitive match would return the entry). -/
theorem tradePath_lookup_not_case_insensitive :
    tradePathResolveSymbol
        [{ symbol := "WETC", address := "0xB4FBF271143F4FBf7B91A5ded31805e42b2208d6",
           decimals := 18 }] "wetc" = none
    ∧ strUpper "wetc" = strUpper "WETC" := by
  exact ⟨by decide, by decide⟩

/-- The balance guard can only raise the two insufficient-balance errors or
the error of a `Decimal` construction on an absent entry. -/
theorem balanceGuard_error_kinds (side : Side) (amount ea : ℚ) (bs qs : String)
    (balances : String → Option ℚ) (e : TradeError)
    (h : balanceGuard side amount ea bs qs balances = .error e) :
    e = .insufficientBaseTokenBalance ∨ e = .insufficientQuoteTokenBalance
      ∨ e = .decimalInvalidArgument := by
  cases side with
  | sell =>
    cases hb : balances bs with
    | none =>
      simp [balanceGuard, hb] at h
      exact Or.inr (Or.inr h.symm)
    | some b =>
      by_cases hlt : b < amount
      · simp [balanceGuard, hb, hlt] at h
        exact Or.inl h.symm
      · simp [balanceGuard, hb, hlt] at h
  | buy =>
    cases hb : balances qs with
    | none =>
      simp [balanceGuard, hb] at h
      exact Or.inr (Or.inr h.symm)
    | some b =>
      by_cases hlt : b < ea
      · simp [balanceGuard, hb, hlt] at h
        exact Or.inr (Or.inl h.symm)
      · simp [balanceGuard, hb, hlt] at h

/-- When the limit-price guard passes, the trade result is never one of the
two limit-price violation errors (it is a balance-guard error or the swap
outcome). -/
theorem tradeModel_no_limit_error_of_guard_ok (side : Side) (lp : Option ℚ)
    (amount ep ea : ℚ) (bs qs : String) (balances : String → Option ℚ)
    (swap : SwapExecution) (h : limitPriceGuard side lp ep = .ok ()) :
    (tradeModel side lp amount ep ea bs qs balances swap).1
        ≠ .error .swapPriceExceedsLimitPrice
    ∧ (tradeModel side lp amount ep ea bs qs balances swap).1
        ≠ .error .swapPriceLowerThanLimitPrice := by
  unfold tradeModel
  rw [h]
  rcases hbg : balanceGuard side amount ea bs qs balances with e | u
  · rcases balanceGuard_error_kinds side amount ea bs qs balances e hbg with rfl | rfl | rfl <;>
      simp
  · rcases hsw : swap.result with e | s <;> simp

/-- C6: with a limit price present, the trade fails with the BUY-specific
violation exactly when `expectedPrice > limitPrice` and with the
SELL-specific violation exactly when `expectedPrice < limitPrice`; in the
failing case zero transaction submissions are performed; with the limit
price absent the check is skipped (the guard passes). -/
theorem trade_limit_price_guard (side : Side) (lp amount ep ea : ℚ) (bs qs : String)
    (balances : String → Option ℚ) (swap : SwapExecution) :
    ((tradeModel side (some lp) amount ep ea bs qs balances swap).1
        = .error .swapPriceExceedsLimitPrice ↔ side = .buy ∧ lp < ep)
    ∧ ((tradeModel side (some lp) amount ep ea bs qs balances swap).1
        = .error .swapPriceLowerThanLimitPrice ↔ side = .sell ∧ ep < lp)
    ∧ ((side = .buy ∧ lp < ep) ∨ (side = .sell ∧ ep < lp) →
        (tradeModel side (some lp) amount ep ea bs qs balances swap).2 = 0)
    ∧ limitPriceGuard side none ep = .ok () := by
  cases side with
  | buy =>
    by_cases hlt : lp < ep
    · have hmodel : tradeModel Side.buy (some lp) amount ep ea bs qs balances swap
          = (.error .swapPriceExceedsLimitPrice, 0) := by
        unfold tradeModel
        rw [show limitPriceGuard Side.buy (some lp) ep
            = .error .swapPriceExceedsLimitPrice by simp [limitPriceGuard, hlt]]
      rw [hmodel]
      exact ⟨by simp [hlt], by simp, fun _ => rfl, rfl⟩
    · have hguard : limitPriceGuard Side.buy (some lp) ep = .ok () := by
        simp [limitPriceGuard, hlt]
      obtain ⟨hne1, hne2⟩ := tradeModel_no_limit_error_of_guard_ok Side.buy (some lp)
        amount ep ea bs qs balances swap hguard
      refine ⟨⟨fun h => absurd h hne1, fun h => absurd h.2 hlt⟩,
        ⟨fun h => absurd h hne2, fun h => absurd h.1 (by simp)⟩, ?_, rfl⟩
      rintro (⟨_, hlt'⟩ | ⟨hside, _⟩)
      · exact absurd hlt' hlt
      · exact absurd hside (by simp)
  | sell =>
    by_cases hlt : ep < lp
    · have hmodel : tradeModel Side.sell (some lp) amount ep ea bs qs balances swap
          = (.error .swapPriceLowerThanLimitPrice, 0) := by
        unfold tradeModel
        rw [show limitPriceGuard Side.sell (some lp) ep
            = .error .swapPriceLowerThanLimitPrice by simp [limitPriceGuard, hlt]]
      rw [hmodel]
      exact ⟨by simp, by simp [hlt], fun _ => rfl, rfl⟩
    · have hguard : limitPriceGuard Side.sell (some lp) ep = .ok () := by
        simp [limitPriceGuard, hlt]
      obtain ⟨hne1, hne2⟩ := tradeModel_no_limit_error_of_guard_ok Side.sell (some lp)
        amount ep ea bs qs balances swap hguard
      refine ⟨⟨fun h => absurd h hne1, fun h => absurd h.1 (by simp)⟩,
        ⟨fun h => absurd h hne2, fun h => absurd h.2 hlt⟩, ?_, rfl⟩
      rintro (⟨hside, _⟩ | ⟨_, hlt'⟩)
      · exact absurd hside (by simp)
      · exact absurd hlt' hlt

/-- C7: once the limit-price guard has passed and the checked balance entry
is present, the trade fails with the side-specific insufficient-balance
error exactly when that balance is below the required amount (the requested
amount on a SELL, the expected spend on a BUY); in the failing case the
trade performs zero submissions; and these failure kinds are distinct from
both limit-price violation errors. -/
theorem trade_balance_guard_exact (side : Side) (lp : Option ℚ) (amount ep ea b : ℚ)
    (bs qs : String) (balances : String → Option ℚ) (swap : SwapExecution)
    (hlim : limitPriceGuard side lp ep = .ok ())
    (hbal : balances (balanceCheckedSymbol side bs qs) = some b) :
    ((tradeModel side lp amount ep ea bs qs balances swap).1
        = .error (insufficientBalanceError side)
      ↔ b < balanceRequiredAmount side amount ea)
    ∧ (b < balanceRequiredAmount side amount ea →
        tradeModel side lp amount ep ea bs qs balances swap
          = (.error (insufficientBalanceError side), 0))
    ∧ insufficientBalanceError side ≠ .swapPriceExceedsLimitPrice
    ∧ insufficientBalanceError side ≠ .swapPriceLowerThanLimitPrice := by
  cases side with
  | sell =>
    simp only [balanceCheckedSymbol] at hbal
    simp only [balanceRequiredAmount, insufficientBalanceError]
    by_cases hlt : b < amount
    · have hmodel : tradeModel Side.sell lp amount ep ea bs qs balances swap
          = (.error .insufficientBaseTokenBalance, 0) := by
        unfold tradeModel
        rw [hlim, show balanceGuard Side.sell amount ea bs qs balances
          = .error .insufficientBaseTokenBalance by simp [balanceGuard, hbal, hlt]]
      rw [hmodel]
      exact ⟨by simp [hlt], fun _ => rfl, by simp, by simp⟩
    · have hmodel : (tradeModel Side.sell lp amount ep ea bs qs balances swap).1
          ≠ .error .insufficientBaseTokenBalance := by
        unfold tradeModel
        rw [hlim, show balanceGuard Side.sell amount ea bs qs balances = .ok () by
          simp [balanceGuard, hbal, hlt]]
        rcases swap.result with e | s <;> simp
      exact ⟨⟨fun h => absurd h hmodel, fun h => absurd h hlt⟩,
        fun h => absurd h hlt, by simp, by simp⟩
  | buy =>
    simp only [balanceCheckedSymbol] at hbal
    simp only [balanceRequiredAmount, insufficientBalanceError]
    by_cases hlt : b < ea
    · have hmodel : tradeModel Side.buy lp amount ep ea bs qs balances swap
          = (.error .insufficientQuoteTokenBalance, 0) := by
        unfold tradeModel
        rw [hlim, show balanceGuard Side.buy amount ea bs qs balances
          = .error .insufficientQuoteTokenBalance by simp [balanceGuard, hbal, hlt]]
      rw [hmodel]
      exact ⟨by simp [hlt], fun _ => rfl, by simp, by simp⟩
    · have hmodel : (tradeModel Side.buy lp amount ep ea bs qs balances swap).1
          ≠ .error .insufficientQuoteTokenBalance := by
        unfold tradeModel
        rw [hlim, show balanceGuard Side.buy amount ea bs qs balances = .ok () by
          simp [balanceGuard, hbal, hlt]]
        rcases swap.result with e | s <;> simp
      exact ⟨⟨fun h => absurd h hmodel, fun h => absurd h hlt⟩,
        fun h => absurd h hlt, by simp, by simp⟩

/-- C7 witness: a SELL of amount 3 against a base-token balance of 1 (limit
price absent, so the limit guard passes) fails with the
insufficient-base-token-balance error and performs zero submissions. -/
theorem trade_balance_guard_exact_witness :
    (((tradeModel Side.sell none 3 1 2 "AAA" "BBB"
          (fun s => if s = "AAA" then some 1 else none) ⟨.ok "sig", 1⟩).1
        = .error (insufficientBalanceError Side.sell))
      ↔ (1 : ℚ) < balanceRequiredAmount Side.sell 3 2)
    ∧ ((1 : ℚ) < balanceRequiredAmount Side.sell 3 2 →
        tradeModel Side.sell none 3 1 2 "AAA" "BBB"
          (fun s => if s = "AAA" then some 1 else none) ⟨.ok "sig", 1⟩
          = (.error (insufficientBalanceError Side.sell), 0))
    ∧ insufficientBalanceError Side.sell ≠ .swapPriceExceedsLimitPrice
    ∧ insufficientBalanceError Side.sell ≠ .swapPriceLowerThanLimitPrice :=
  trade_balance_guard_exact Side.sell none 3 1 2 1 "AAA" "BBB"
    (fun s => if s = "AAA" then some 1 else none) ⟨.ok "sig", 1⟩ rfl
    (by simp [balanceCheckedSymbol])

/-- Appending one token to the list adds (or overwrites) its address
binding in `tokenDefs` when it passes the symbol filter, and changes
nothing otherwise. -/
theorem tokenDefs_concat (l : List SplToken) (t : SplToken) (us : Option (List String))
    (m : String) :
    tokenDefs (l ++ [t]) us m =
      if symbolFilterPasses us t = true then
        (if m = t.address then some (t.symbol, t.decimals) else tokenDefs l us m)
      else tokenDefs l us m := by
  simp only [tokenDefs, List.foldl_append, List.foldl_cons, List.foldl_nil]
  cases hb : symbolFilterPasses us t with
  | true => simp [hb]
  | false => simp [hb]

/-- A mint owned by none of the filtered token-list entries has no
`tokenDefs` binding. -/
theorem tokenDefs_none_of (l : List SplToken) (us : Option (List String)) (m : String)
    (h : ∀ t ∈ l, symbolFilterPasses us t = true → m ≠ t.address) :
    tokenDefs l us m = none := by
  induction l using List.reverseRecOn with
  | nil => rfl
  | append_singleton l t ih =>
    rw [tokenDefs_concat]
    have hrest : ∀ t' ∈ l, symbolFilterPasses us t' = true → m ≠ t'.address :=
      fun t' ht' => h t' (by simp [ht'])
    by_cases hc : symbolFilterPasses us t = true
    · have hm : m ≠ t.address := h t (by simp) hc
      simp [hc, hm, ih hrest]
    · simp [hc, ih hrest]

/-- Processing one more token account updates the balance map at that
account's resolved symbol, or leaves the map unchanged when the mint has no
`tokenDefs` binding. -/
theorem getBalance_concat (tokenList : List SplToken) (accounts : List (String × ℕ))
    (p : String × ℕ) (symbols : Option (List String)) (solLamports : ℕ) :
    getBalance tokenList (accounts ++ [p]) symbols solLamports =
      match tokenDefs tokenList (symbols.map (List.map strUpper)) p.1 with
      | none => getBalance tokenList accounts symbols solLamports
      | some sd => fun s =>
          if s = sd.1 then some ((p.2 : ℚ) / 10 ^ sd.2)
          else getBalance tokenList accounts symbols solLamports s := by
  rcases hd : tokenDefs tokenList (symbols.map (List.map strUpper)) p.1 with _ | sd <;>
    simp [getBalance, List.foldl_append, hd]

/-- C10: when the wallet holds no token account for the token whose balance
`trade` checks (no account mint belongs to a token-list entry matching the
checked symbol case-insensitively, and the symbol is not the native
`"SOL"`), `getBalance` returns a map with NO entry for that symbol, and the
balance guard — reading the absent key and handing `undefined` to the
`Decimal` constructor — fails with an error that is neither of the
insufficient-balance kinds, on a SELL (base token) as on a BUY (quote
token). -/
theorem trade_missing_token_account (tokenList : List SplToken)
    (accounts : List (String × ℕ)) (sym bs qs : String) (lam : ℕ) (lp : Option ℚ)
    (amount ep ea : ℚ) (swap : SwapExecution)
    (hsol : strUpper sym ≠ "SOL")
    (hacc : ∀ p ∈ accounts, ∀ t ∈ tokenList,
      strUpper t.symbol = strUpper sym → p.1 ≠ t.address)
    (hlimS : limitPriceGuard .sell lp ep = .ok ())
    (hlimB : limitPriceGuard .buy lp ep = .ok ()) :
    getBalance tokenList accounts (some [sym]) lam sym = none
    ∧ (tradeModel .sell lp amount ep ea sym qs
        (getBalance tokenList accounts (some [sym]) lam) swap).1
        = .error .decimalInvalidArgument
    ∧ (tradeModel .buy lp amount ep ea bs sym
        (getBalance tokenList accounts (some [sym]) lam) swap).1
        = .error .decimalInvalidArgument
    ∧ TradeError.decimalInvalidArgument ≠ .insufficientBaseTokenBalance
    ∧ TradeError.decimalInvalidArgument ≠ .insufficientQuoteTokenBalance := by
  have hnone : ∀ accs : List (String × ℕ),
      (∀ p ∈ accs, ∀ t ∈ tokenList, strUpper t.symbol = strUpper sym → p.1 ≠ t.address) →
      getBalance tokenList accs (some [sym]) lam sym = none := by
    intro accs
    induction accs using List.reverseRecOn with
    | nil =>
      intro _
      have hb : ¬ ("SOL" = strUpper sym) := fun hcontr => hsol hcontr.symm
      simp [getBalance, hb]
    | append_singleton accs p ih =>
      intro h
      rw [getBalance_concat]
      have hd : tokenDefs tokenList ((some [sym]).map (List.map strUpper)) p.1 = none := by
        apply tokenDefs_none_of
        intro t ht hc
        have hts : strUpper t.symbol = strUpper sym := by
          simpa [symbolFilterPasses] using hc
        exact h p (by simp) t ht hts
      rw [hd]
      exact ih (fun p' hp' => h p' (by simp [hp']))
  have hn := hnone accounts hacc
  refine ⟨hn, ?_, ?_, by simp, by simp⟩
  · unfold tradeModel
    rw [hlimS, show balanceGuard Side.sell amount ea sym qs
        (getBalance tokenList accounts (some [sym]) lam) = .error .decimalInvalidArgument
      by simp [balanceGuard, hn]]
  · unfold tradeModel
    rw [hlimB, show balanceGuard Side.buy amount ea bs sym
        (getBalance tokenList accounts (some [sym]) lam) = .error .decimalInvalidArgument
      by simp [balanceGuard, hn]]

/-- C10 witness: a wallet whose only token account is an unrelated mint,
checked for the listed token `"USDC"`: the balance map has no `"USDC"`
entry and both trade sides fail with the `Decimal`-construction error. -/
theorem trade_missing_token_account_witness :
    getBalance [{ symbol := "USDC", address := "mintUSDC", decimals := 6 }]
        [("otherMint", 7)] (some ["USDC"]) 5 "USDC" = none
    ∧ (tradeModel .sell none 1 2 3 "USDC" "XYZ"
        (getBalance [{ symbol := "USDC", address := "mintUSDC", decimals := 6 }]
          [("otherMint", 7)] (some ["USDC"]) 5) ⟨.ok "sig", 2⟩).1
        = .error .decimalInvalidArgument
    ∧ (tradeModel .buy none 1 2 3 "XYZ" "USDC"
        (getBalance [{ symbol := "USDC", address := "mintUSDC", decimals := 6 }]
          [("otherMint", 7)] (some ["USDC"]) 5) ⟨.ok "sig", 2⟩).1
        = .error .decimalInvalidArgument
    ∧ TradeError.decimalInvalidArgument ≠ .insufficientBaseTokenBalance
    ∧ TradeError.decimalInvalidArgument ≠ .insufficientQuoteTokenBalance :=
  trade_missing_token_account
    [{ symbol := "USDC", address := "mintUSDC", decimals := 6 }]
    [("otherMint", 7)] "USDC" "XYZ" "XYZ" 5 none 1 2 3 ⟨.ok "sig", 2⟩
    (by decide) (by decide) rfl rfl
